import Mathlib

/-!
Shallow embedding of the Laplace-approximation library (`laplace/baselaplace.py`)
and proofs about its specification.

Modelling conventions:
* floating-point tensors are modelled by exact rationals; a flattened tensor is a
  `List ℚ` and a dense matrix a `List (List ℚ)` (row major);
* in-place mutation of a Laplace object becomes explicit state passing on a
  structure; a Python `raise` becomes `Except.error` carrying the message;
* the curvature backend, the predictor forward pass and the random sampler are
  external collaborators of the library; they enter the embedding as function
  parameters, exactly as wide as the interface the source calls.
-/

namespace LaplaceLib

abbrev Vec := List ℚ

abbrev Mat := List Vec

instance {ε α : Type} [DecidableEq ε] [DecidableEq α] : DecidableEq (Except ε α) :=
  fun a b =>
    match a, b with
    | .ok x, .ok y =>
      if h : x = y then isTrue (by rw [h])
      else isFalse (by intro hc; cases hc; exact h rfl)
    | .error e, .error f =>
      if h : e = f then isTrue (by rw [h])
      else isFalse (by intro hc; cases hc; exact h rfl)
    | .ok _, .error _ => isFalse (by intro hc; cases hc)
    | .error _, .ok _ => isFalse (by intro hc; cases hc)

/-- The three accepted likelihood strings of `BaseLaplace.__init__`. -/
inductive Likelihood where
  | classification
  | regression
  | rewardModeling
  deriving DecidableEq, Repr

/-- Per-layer broadcast of a prior precision: `torch.cat([prior * torch.ones(n) for
prior, n in zip(self.prior_precision, n_params_per_layer)])` (baselaplace.py 208-214). -/
def layerExpand (pp : Vec) (sizes : List ℕ) : Vec :=
  ((pp.zip sizes).map (fun q => List.replicate q.2 q.1)).flatten

/-- `BaseLaplace.prior_precision_diag` (baselaplace.py 192-219).  `sizes` lists the
element count of each trainable parameter tensor, so `n_layers = sizes.length` and
`n_params = sizes.sum`.  The source checks the scalar case, then the diagonal
(`n_params`) case, then the per-layer (`n_layers`) case, and raises otherwise. -/
def priorPrecisionDiag (pp : Vec) (sizes : List ℕ) : Except String Vec :=
  if pp.length = 1 then
    .ok (List.replicate sizes.sum (pp.headD 0))
  else if pp.length = sizes.sum then
    .ok pp
  else if pp.length = sizes.length then
    .ok (layerExpand pp sizes)
  else
    .error "Mismatch of prior and model. Diagonal, scalar, or per-layer prior."

/-- The manual broadcast described by the spec: a scalar is repeated `n_params`
times, a per-layer value is repeated over that layer's parameter count, and a
per-parameter vector is taken as is; any other length is invalid. -/
def specBroadcast (pp : Vec) (sizes : List ℕ) : Option Vec :=
  if pp.length = 1 then some (List.replicate sizes.sum (pp.headD 0))
  else if pp.length = sizes.length then some (layerExpand pp sizes)
  else if pp.length = sizes.sum then some pp
  else none

/-- `BaseLaplace._H_factor` (baselaplace.py 456-459): `1 / sigma_noise.square() /
temperature`. -/
def hFactor (sigmaNoise temperature : ℚ) : ℚ :=
  1 / sigmaNoise ^ 2 / temperature

/-- Entrywise scaling of a dense matrix by a scalar. -/
def matScale (c : ℚ) (A : Mat) : Mat :=
  A.map (List.map (fun x => c * x))

/-- `torch.diag(d)`: the square matrix with `d` on the diagonal. -/
def diagMat (d : Vec) : Mat :=
  (List.range d.length).map (fun i =>
    (List.range d.length).map (fun j => if i = j then d.getD i 0 else 0))

/-- Entrywise sum of two dense matrices of equal shape. -/
def matAdd (A B : Mat) : Mat :=
  List.zipWith (List.zipWith (fun x y => x + y)) A B

/-- Entrywise sum of two vectors of equal length. -/
def vecAdd (v w : Vec) : Vec :=
  List.zipWith (fun x y => x + y) v w

/-- State of a `FullLaplace` object as far as `posterior_precision` reads it:
`H` is `None` before the first fit (`_init_H` of the subclass sets a tensor). -/
structure FullState where
  H : Option Mat
  sigmaNoise : ℚ
  temperature : ℚ
  priorPrecision : Vec
  sizes : List ℕ
  deriving DecidableEq

/-- State of a `DiagLaplace` object as far as `posterior_precision` reads it. -/
structure DiagState where
  H : Option Vec
  sigmaNoise : ℚ
  temperature : ℚ
  priorPrecision : Vec
  sizes : List ℕ
  deriving DecidableEq

/-- `FullLaplace.posterior_precision` (baselaplace.py 1175-1185):
`self._check_H_init()` then `self._H_factor * self.H +
torch.diag(self.prior_precision_diag)`. -/
def fullPosteriorPrecision (s : FullState) : Except String Mat :=
  match s.H with
  | none => .error "Laplace not fitted. Run fit() first."
  | some A => do
    let p0 ← priorPrecisionDiag s.priorPrecision s.sizes
    pure (matAdd (matScale (hFactor s.sigmaNoise s.temperature) A) (diagMat p0))

/-- `DiagLaplace.posterior_precision` (baselaplace.py 1508-1518):
`self._check_H_init()` then `self._H_factor * self.H + self.prior_precision_diag`
(all length-`n_params` vectors, elementwise). -/
def diagPosteriorPrecision (s : DiagState) : Except String Vec :=
  match s.H with
  | none => .error "Laplace not fitted. Run fit() first."
  | some h => do
    let p0 ← priorPrecisionDiag s.priorPrecision s.sizes
    pure (List.zipWith (fun x p => hFactor s.sigmaNoise s.temperature * x + p) h p0)

/-- The posterior precision the spec promises for the dense variant:
`H_factor * H + diag(prior_precision_diag)` with `H_factor = 1/(sigma_noise^2 *
temperature)` and the manually broadcast prior. -/
def specFullPosterior (A : Mat) (sigmaNoise temperature : ℚ) (p0 : Vec) : Mat :=
  matAdd (matScale (1 / (sigmaNoise ^ 2 * temperature)) A) (diagMat p0)

/-- The posterior precision the spec promises for the diagonal variant. -/
def specDiagPosterior (h : Vec) (sigmaNoise temperature : ℚ) (p0 : Vec) : Vec :=
  List.zipWith (fun x p => 1 / (sigmaNoise ^ 2 * temperature) * x + p) h p0

/-! ### The parametric fitting loop (`ParametricLaplace.fit`, baselaplace.py 523-588) -/

/-- The accumulator fields of a `ParametricLaplace` object touched by `fit`.
`α` is the curvature representation (`Mat` for the dense variant, `Vec` for the
diagonal one); `mean` is the flattened parameter vector. -/
structure ParamState (α : Type) where
  mean : Vec
  H : α
  loss : ℚ
  nData : ℕ
  deriving DecidableEq

/-- `ParametricLaplace.fit(train_loader, override)` (baselaplace.py 523-588).

Modelled from the spec for the external collaborators: the curvature backend is
not under src/, so its batch closure `_curv_closure(X, y, N)` is taken as a
function `closure` from a batch to a `(loss contribution, curvature contribution)`
pair, the interface stated in spec sections 2 and 6; `trainable` stands for
`parameters_to_vector(self.params)` and `n` for `len(train_loader.dataset)`.

The source resets `H`, `loss`, `n_data` when `override` holds, stores the
parameter vector into `mean`, adds the closure results batch by batch in stream
order, and finally increases `n_data` by `n`. -/
def parametricFit {α β : Type} (initH : α) (add : α → α → α) (closure : β → ℚ × α)
    (trainable : Vec) (s : ParamState α) (stream : List β) (n : ℕ) (override : Bool) :
    ParamState α :=
  let start : ℚ × α := if override then (0, initH) else (s.loss, s.H)
  let acc := stream.foldl (fun p b => (p.1 + (closure b).1, add p.2 (closure b).2)) start
  { mean := trainable
    H := acc.2
    loss := acc.1
    nData := (if override then 0 else s.nData) + n }

/-- `FullLaplace._init_H`: `torch.zeros(n_params, n_params)`. -/
def zeroMat (n : ℕ) : Mat :=
  List.replicate n (List.replicate n 0)

/-- `FullLaplace.fit` as it updates `H`, `loss`, `n_data` and `mean`. -/
def fullFit {β : Type} (nParams : ℕ) (closure : β → ℚ × Mat) (trainable : Vec)
    (s : ParamState Mat) (stream : List β) (n : ℕ) (override : Bool) : ParamState Mat :=
  parametricFit (zeroMat nParams) matAdd closure trainable s stream n override

/-- `DiagLaplace.fit` as it updates `H`, `loss`, `n_data` and `mean`
(`_init_H` is `torch.zeros(n_params)`). -/
def diagFit {β : Type} (nParams : ℕ) (closure : β → ℚ × Vec) (trainable : Vec)
    (s : ParamState Vec) (stream : List β) (n : ℕ) (override : Bool) : ParamState Vec :=
  parametricFit (List.replicate nParams 0) vecAdd closure trainable s stream n override

/-! ### The low-rank variant (`LowRankLaplace`, baselaplace.py 1359-1489) -/

/-- A parameter tensor of the predictor, flattened, with its `requires_grad` flag. -/
abbrev ParamTensor := Vec × Bool

/-- `parameters_to_vector(self.model.parameters())`: all parameter tensors,
trainable or frozen, concatenated in model order. -/
def flattenAllParams (ps : List ParamTensor) : Vec :=
  (ps.map Prod.fst).flatten

/-- `parameters_to_vector(self.params)`: the trainable tensors only
(`BaseLaplace.__init__` keeps exactly the tensors with `requires_grad`,
baselaplace.py 86-92). -/
def flattenTrainable (ps : List ParamTensor) : Vec :=
  ((ps.filter (fun q => q.2)).map Prod.fst).flatten

/-- `self.n_params = sum(p.numel() for p in self.params)` (baselaplace.py 94). -/
def nParamsOf (ps : List ParamTensor) : ℕ :=
  (flattenTrainable ps).length

/-- State of a `LowRankLaplace` object touched by its `fit`; `H` holds the
eigendecomposition `(eigenvectors, eigenvalues)` once fitted. -/
structure LowRankState where
  modelParams : List ParamTensor
  mean : Vec
  H : Option (Mat × Vec)
  loss : ℚ
  nData : ℕ
  deriving DecidableEq

/-- `LowRankLaplace.fit(train_loader, override)` (baselaplace.py 1412-1437).
The first statement raises when `override` is false, before any state is
touched, so a failing call leaves the object unchanged.  Otherwise the source
sets `self.mean = parameters_to_vector(self.model.parameters())` (all model
parameters, not `self.params`), calls the backend eigendecomposition over the
whole stream (modelled from the spec as the function `eig`, spec section 6),
stores `(eigenvectors, eigenvalues)` into `H`, the returned loss into `loss`,
and `len(train_loader.dataset)` into `n_data`. -/
def lowRankFit {β : Type} (eig : List β → Mat × Vec × ℚ) (s : LowRankState)
    (stream : List β) (n : ℕ) (override : Bool) : Except String LowRankState :=
  if override = false then
    .error "LowRank LA does not support updating."
  else
    let r := eig stream
    .ok { s with
          mean := flattenAllParams s.modelParams
          H := some (r.1, r.2.1)
          loss := r.2.2
          nData := n }

/-! ### Constructor, sigma-noise paths and reward-modeling state
(`BaseLaplace.__init__` 67-130, `sigma_noise` setter 437-454,
`log_marginal_likelihood` 672-702, `__call__` 704-831) -/

/-- The fields of a `BaseLaplace` object relevant to the likelihood and
observation-noise contracts.  `outputSize` is the `output_size` attribute the
library sets on the predictor as a side channel. -/
structure BaseState where
  likelihood : Likelihood
  rewardModeling : Bool
  sigmaNoise : ℚ
  outputSize : Option ℕ
  deriving DecidableEq

/-- `BaseLaplace.__init__` restricted to the likelihood / sigma-noise logic
(baselaplace.py 80-108): an invalid likelihood string cannot be formed here
because `Likelihood` only has the three accepted values; a non-unit
`sigma_noise` together with a non-regression likelihood raises; for
`reward_modeling` the stored likelihood becomes `classification` for fitting. -/
def initBase (lik : Likelihood) (sigmaNoise : ℚ) : Except String BaseState :=
  if sigmaNoise ≠ 1 ∧ lik ≠ .regression then
    .error "Sigma noise != 1 only available for regression."
  else
    .ok { likelihood := if lik = .rewardModeling then .classification else lik
          rewardModeling := lik = .rewardModeling
          sigmaNoise := sigmaNoise
          outputSize := none }

/-- The `sigma_noise` property setter (baselaplace.py 437-454) applied to a
scalar argument.  The source clears the cached posterior scale, checks only the
shape of the argument (a scalar always passes) and stores it; no branch of the
setter inspects `self.likelihood`. -/
def setSigmaNoise (s : BaseState) (v : ℚ) : Except String BaseState :=
  .ok { s with sigmaNoise := v }

/-- The parameter-update prefix of `ParametricLaplace.log_marginal_likelihood`
(baselaplace.py 692-701): an explicit `sigma_noise` argument raises unless the
likelihood is regression, otherwise it is stored through the setter.  The
numerical value of the marginal likelihood is not needed by the claims about
this prefix. -/
def logMarglikSetSigma (s : BaseState) (sigmaArg : Option ℚ) : Except String BaseState :=
  match sigmaArg with
  | none => .ok s
  | some v =>
    if s.likelihood ≠ .regression then
      .error "Can only change sigma_noise for regression."
    else
      .ok { s with sigmaNoise := v }

/-- `ParametricLaplace.fit` / `FunctionalLaplace.fit` both run
`setattr(self.model, 'output_size', self.n_outputs)` and leave the stored
likelihood untouched (baselaplace.py 567-568, 1814-1815). -/
def fitSetsOutput (s : BaseState) (nOutputs : ℕ) : BaseState :=
  { s with outputSize := some nOutputs }

/-- Which dispatch branch a predictive call takes. -/
inductive PredPath where
  | regression
  | classification
  deriving DecidableEq, Repr

/-- The likelihood-dispatch part of `ParametricLaplace.__call__` (779-790) and
`FunctionalLaplace.__call__` (1981-1991): once the argument validation has
passed, a reward-modeling object still carrying the classification likelihood is
switched to regression with `model.output_size = 1`, and the branch is then
chosen from the (possibly updated) stored likelihood. -/
def predCall (s : BaseState) : BaseState × PredPath :=
  let s2 :=
    if s.rewardModeling = true ∧ s.likelihood = .classification then
      { s with likelihood := .regression, outputSize := some 1 }
    else s
  (s2, if s2.likelihood = .regression then .regression else .classification)

/-! ### Grid search (`BaseLaplace._gridsearch`, baselaplace.py 393-431) -/

/-- The score recorded for one grid point: the validation loss when `validate`
returns one, `np.inf` (the top element) when it raises a `RuntimeError`.
`evalR p = none` models the evaluation at prior precision `p` raising. -/
def gridScore (evalR : ℚ → Option ℚ) (p : ℚ) : WithTop ℚ :=
  match evalR p with
  | none => ⊤
  | some v => (v : WithTop ℚ)

/-- Running pair of `np.argmin`: best index and best value so far, scanning the
remaining scores from index `i`; on ties the earlier index is kept, as numpy
returns the first occurrence of the minimum. -/
def argminPair (p : ℕ × WithTop ℚ) (i : ℕ) : List (WithTop ℚ) → ℕ × WithTop ℚ
  | [] => p
  | x :: xs => if x < p.2 then argminPair (i, x) (i + 1) xs else argminPair p (i + 1) xs

/-- `np.argmin` on a list of scores (first index attaining the minimum). -/
def argminIdx : List (WithTop ℚ) → ℕ
  | [] => 0
  | x :: xs => (argminPair (0, x) 1 xs).1

/-- `BaseLaplace._gridsearch`: evaluate every grid point, score a raising
evaluation as infinite, and return `prior_precs[np.argmin(results)]`. -/
def gridsearch (evalR : ℚ → Option ℚ) (interval : List ℚ) : Option ℚ :=
  interval[argminIdx (interval.map (gridScore evalR))]?

/-! ### The function-space variant (`FunctionalLaplace`, baselaplace.py 1569-2590) -/

/-- State of a `FunctionalLaplace` object (non-diagonal kernel) as far as the
prior-precision / Sigma_inv lifecycle reads it.  The source caches
`Sigma_inv = cholesky(R)` where `R` is the regularized kernel below; the
Cholesky factor is a deterministic function of `R`, and the claims concern when
and from which state the cache is rebuilt, so the embedding stores `R` itself. -/
structure FuncState where
  fitted : Bool
  recomputeSigma : Bool
  kMM : Mat
  L : Vec
  priorFactorSod : ℚ
  priorPrecision : ℚ
  sigmaNoise : ℚ
  temperature : ℚ
  sigmaInv : Option Mat
  nData : ℕ
  deriving DecidableEq

/-- `FunctionalLaplace.gp_kernel_prior_variance` (baselaplace.py 2050-2052):
`self._prior_factor_sod / self.prior_precision`. -/
def gpKernelPriorVariance (s : FuncState) : ℚ :=
  s.priorFactorSod / s.priorPrecision

/-- `torch.nan_to_num(1 / x, posinf=10.0)` on the likelihood-curvature
reciprocal: a zero curvature gives an infinite float reciprocal which the source
clamps to `10.0`. -/
def clampRecip (x : ℚ) : ℚ :=
  if x = 0 then 10 else 1 / x

/-- Entrywise sum of a matrix with `torch.diag(d)` for a vector `d`. -/
def addDiagTo (A : Mat) (d : Vec) : Mat :=
  matAdd A (diagMat d)

/-- The matrix whose Cholesky factor `_build_Sigma_inv` stores (baselaplace.py
1783-1789, non-diagonal kernel): `gp_kernel_prior_variance * K_MM +
diag(nan_to_num(1 / (H_factor * L), posinf=10.0))`. -/
def regularizedKernel (s : FuncState) : Mat :=
  addDiagTo (matScale (gpKernelPriorVariance s) s.kMM)
    (s.L.map (fun lam => clampRecip (hFactor s.sigmaNoise s.temperature * lam)))

/-- `FunctionalLaplace._build_Sigma_inv` (baselaplace.py 1761-1789). -/
def buildSigmaInv (s : FuncState) : FuncState :=
  { s with sigmaInv := some (regularizedKernel s) }

/-- The `FunctionalLaplace.prior_precision` setter (baselaplace.py 2481-2506)
for a scalar argument: it stores the value and marks the cached Cholesky factor
dirty (`self._recompute_Sigma = True`); nothing from the fit is recomputed. -/
def setPriorPrecisionGP (s : FuncState) (p : ℚ) : FuncState :=
  { s with priorPrecision := p, recomputeSigma := true }

/-- The state-transition prefix of `FunctionalLaplace.__call__` (baselaplace.py
1955-1966): a not-yet-fitted object raises; otherwise, when the dirty flag is
set, `Sigma_inv` is rebuilt from the current state before the prediction is
computed from it.  The returned state is the one whose `Sigma_inv` the
predictive math subsequently reads through `functional_variance`. -/
def funcCallState (s : FuncState) : Except String FuncState :=
  if s.fitted = false then
    .error "Functional Laplace has not been fitted to any training dataset. Please call .fit method."
  else
    .ok (if s.recomputeSigma = true then buildSigmaInv s else s)

/-! ### nn-mode predictive calls (`ParametricLaplace._nn_predictive_samples`
906-918 and `._nn_predictive_classification` 920-929) -/

/-- The predictor state an nn-mode call mutates: the model's current trainable
parameter vector, and the stored posterior mean. -/
structure NNState where
  params : Vec
  mean : Vec
  deriving DecidableEq

/-- `_nn_predictive_samples`: for each posterior draw, load it into the model
(`vector_to_parameters(sample, self.params)`), run the forward pass (the opaque
predictor, modelled as `forward`), and collect the outputs; afterwards reload
`self.mean` into the model.  `samples` models the draws of `self.sample(n)`. -/
def nnPredictiveSamples {β : Type} (forward : Vec → β) (s : NNState)
    (samples : List Vec) : NNState × List β :=
  let step := fun (acc : NNState × List β) (sample : Vec) =>
    ({ acc.1 with params := sample }, acc.2 ++ [forward sample])
  let r := samples.foldl step (s, [])
  ({ r.1 with params := r.1.mean }, r.2)

/-- `_nn_predictive_classification`: same loop, accumulating the running average
`py += softmax(model(X)) / n_samples` (the softmax-composed forward pass is the
opaque `forward`); afterwards reload `self.mean` into the model. -/
def nnPredictiveClassification (forward : Vec → ℚ) (s : NNState)
    (samples : List Vec) (nSamples : ℕ) : NNState × ℚ :=
  let step := fun (acc : NNState × ℚ) (sample : Vec) =>
    ({ acc.1 with params := sample }, acc.2 + forward sample / nSamples)
  let r := samples.foldl step (s, 0)
  ({ r.1 with params := r.1.mean }, r.2)

/-! ### Concrete data for counterexamples and witnesses -/

/-- A predictor with one trainable parameter tensor `[2]` and one frozen
parameter tensor `[3]`. -/
def demoModelParams : List ParamTensor := [([2], true), ([3], false)]

/-- A freshly constructed `LowRankLaplace` over `demoModelParams`
(`_init_H` sets `H = None`, baselaplace.py 1399-1400). -/
def demoLowRankState : LowRankState :=
  { modelParams := demoModelParams, mean := [], H := none, loss := 0, nData := 0 }

/-- A stand-in backend eigendecomposition returning rank-one output. -/
def demoEig : List Unit → Mat × Vec × ℚ := fun _ => ([[1]], [1], 5)

/-- A classification `BaseLaplace` object right after a valid construction. -/
def demoClassifState : BaseState :=
  { likelihood := .classification, rewardModeling := false, sigmaNoise := 1,
    outputSize := none }

/-- A validation evaluation that raises a `RuntimeError` at every grid point. -/
def demoFailEval : ℚ → Option ℚ := fun _ => none

/-- A validation evaluation that succeeds only at prior precision 3, with loss 7. -/
def demoPartialEval : ℚ → Option ℚ := fun p => if p = 3 then some 7 else none

/-- A fitted `FunctionalLaplace` object on a one-point subset. -/
def demoFuncState : FuncState :=
  { fitted := true, recomputeSigma := false, kMM := [[1]], L := [2],
    priorFactorSod := 1, priorPrecision := 4, sigmaNoise := 1, temperature := 1,
    sigmaInv := none, nData := 3 }

/-- A predictor whose current parameters agree with the stored posterior mean. -/
def demoNNState : NNState := { params := [1, 4], mean := [1, 4] }

/-- The `BaseLaplace` state produced by constructing with likelihood
`reward_modeling` and unit observation noise. -/
def demoRMState : BaseState :=
  { likelihood := .classification, rewardModeling := true, sigmaNoise := 1,
    outputSize := none }

/-! ### Helper lemmas -/

lemma layerExpand_nil_left (sizes : List ℕ) : layerExpand [] sizes = [] := by
  simp [layerExpand]

lemma layerExpand_cons (a : ℚ) (as : Vec) (b : ℕ) (bs : List ℕ) :
    layerExpand (a :: as) (b :: bs) = List.replicate b a ++ layerExpand as bs := by
  simp [layerExpand]

lemma layerExpand_length (pp : Vec) (sizes : List ℕ) (h : pp.length = sizes.length) :
    (layerExpand pp sizes).length = sizes.sum := by
  induction pp generalizing sizes with
  | nil =>
    cases sizes with
    | nil => simp [layerExpand_nil_left]
    | cons b bs => simp at h
  | cons a as ih =>
    cases sizes with
    | nil => simp at h
    | cons b bs =>
      simp only [List.length_cons, Nat.add_right_cancel_iff] at h
      simp [layerExpand_cons, ih bs h, List.sum_cons]

lemma length_le_sum_of_pos (sizes : List ℕ) (hpos : ∀ n ∈ sizes, 0 < n) :
    sizes.length ≤ sizes.sum := by
  induction sizes with
  | nil => simp
  | cons b bs ih =>
    have hb : 0 < b := hpos b (List.mem_cons_self b bs)
    have := ih (fun n hn => hpos n (List.mem_cons_of_mem b hn))
    simp only [List.length_cons, List.sum_cons]
    omega

lemma all_one_of_length_eq_sum (sizes : List ℕ) (hpos : ∀ n ∈ sizes, 0 < n)
    (h : sizes.length = sizes.sum) : ∀ n ∈ sizes, n = 1 := by
  induction sizes with
  | nil => simp
  | cons b bs ih =>
    have hb : 0 < b := hpos b (List.mem_cons_self b bs)
    have hpos' : ∀ n ∈ bs, 0 < n := fun n hn => hpos n (List.mem_cons_of_mem b hn)
    have hle := length_le_sum_of_pos bs hpos'
    simp only [List.length_cons, List.sum_cons] at h
    have hb1 : b = 1 := by omega
    have hbs : bs.length = bs.sum := by omega
    intro n hn
    rcases List.mem_cons.mp hn with rfl | hn
    · exact hb1
    · exact ih hpos' hbs n hn

lemma layerExpand_of_one (pp : Vec) (sizes : List ℕ) (h : pp.length = sizes.length)
    (h1 : ∀ n ∈ sizes, n = 1) : layerExpand pp sizes = pp := by
  induction pp generalizing sizes with
  | nil =>
    cases sizes with
    | nil => simp [layerExpand_nil_left]
    | cons b bs => simp at h
  | cons a as ih =>
    cases sizes with
    | nil => simp at h
    | cons b bs =>
      simp only [List.length_cons, Nat.add_right_cancel_iff] at h
      have hb : b = 1 := h1 b (List.mem_cons_self b bs)
      have h1' : ∀ n ∈ bs, n = 1 := fun n hn => h1 n (List.mem_cons_of_mem b hn)
      simp [layerExpand_cons, hb, ih bs h h1', List.replicate]

/-- On any prior precision of an accepted length, the broadcast implemented by
`prior_precision_diag` agrees with the manual broadcast of the spec and has
length `n_params`.  Positivity of the per-layer element counts settles the
overlap case `n_layers = n_params`, where the source takes the diagonal branch
and the spec reading takes the per-layer one: there every layer has exactly one
element, so the two broadcasts coincide. -/
lemma broadcast_agree (pp : Vec) (sizes : List ℕ) (hpos : ∀ n ∈ sizes, 0 < n)
    (hlen : pp.length = 1 ∨ pp.length = sizes.length ∨ pp.length = sizes.sum) :
    ∃ v, priorPrecisionDiag pp sizes = .ok v ∧ specBroadcast pp sizes = some v ∧
      v.length = sizes.sum := by
  by_cases h1 : pp.length = 1
  · refine ⟨List.replicate sizes.sum (pp.headD 0), ?_, ?_, by simp⟩
    · unfold priorPrecisionDiag; rw [if_pos h1]
    · unfold specBroadcast; rw [if_pos h1]
  · by_cases hsum : pp.length = sizes.sum
    · by_cases hlay : pp.length = sizes.length
      · have hls : sizes.length = sizes.sum := by omega
        have hone := all_one_of_length_eq_sum sizes hpos hls
        refine ⟨pp, ?_, ?_, hsum⟩
        · unfold priorPrecisionDiag; rw [if_neg h1, if_pos hsum]
        · unfold specBroadcast; rw [if_neg h1, if_pos hlay]
          exact congrArg some (layerExpand_of_one pp sizes hlay hone)
      · refine ⟨pp, ?_, ?_, hsum⟩
        · unfold priorPrecisionDiag; rw [if_neg h1, if_pos hsum]
        · unfold specBroadcast; rw [if_neg h1, if_neg hlay, if_pos hsum]
    · have hlay : pp.length = sizes.length := by tauto
      refine ⟨layerExpand pp sizes, ?_, ?_, layerExpand_length pp sizes hlay⟩
      · unfold priorPrecisionDiag; rw [if_neg h1, if_neg hsum, if_pos hlay]
      · unfold specBroadcast; rw [if_neg h1, if_pos hlay]

/-- `1 / sigma^2 / temperature` is the claimed `1 / (sigma^2 * temperature)`. -/
lemma hFactor_eq (sigmaNoise temperature : ℚ) :
    hFactor sigmaNoise temperature = 1 / (sigmaNoise ^ 2 * temperature) :=
  div_div 1 (sigmaNoise ^ 2) temperature

/-- Fitting two halves sequentially (`override=False` on the second call) is the
same run of accumulations as fitting the concatenated stream once. -/
lemma parametricFit_split {α β : Type} (initH : α) (add : α → α → α)
    (closure : β → ℚ × α) (trainable : Vec) (s : ParamState α) (h1 h2 : List β)
    (N1 N2 : ℕ) :
    parametricFit initH add closure trainable
        (parametricFit initH add closure trainable s h1 N1 true) h2 N2 false =
      parametricFit initH add closure trainable s (h1 ++ h2) (N1 + N2) true := by
  simp [parametricFit, List.foldl_append, Nat.add_assoc]

lemma argminPair_le (xs : List (WithTop ℚ)) : ∀ (p : ℕ × WithTop ℚ) (i : ℕ),
    (argminPair p i xs).2 ≤ p.2 ∧ ∀ y ∈ xs, (argminPair p i xs).2 ≤ y := by
  induction xs with
  | nil => intro p i; simp [argminPair]
  | cons x xs ih =>
    intro p i
    simp only [argminPair]
    by_cases h : x < p.2
    · rw [if_pos h]
      obtain ⟨ha, hb⟩ := ih (i, x) (i + 1)
      refine ⟨le_trans ha (le_of_lt h), ?_⟩
      intro y hy
      rcases List.mem_cons.mp hy with rfl | hy
      · exact ha
      · exact hb y hy
    · rw [if_neg h]
      obtain ⟨ha, hb⟩ := ih p (i + 1)
      refine ⟨ha, ?_⟩
      intro y hy
      rcases List.mem_cons.mp hy with rfl | hy
      · exact le_trans ha (le_of_not_lt h)
      · exact hb y hy

lemma argminPair_index (xs : List (WithTop ℚ)) : ∀ (p : ℕ × WithTop ℚ) (i : ℕ),
    argminPair p i xs = p ∨
      ∃ k, k < xs.length ∧ (argminPair p i xs).1 = i + k ∧
        (argminPair p i xs).2 = xs.getD k ⊤ := by
  induction xs with
  | nil => intro p i; left; rfl
  | cons x xs ih =>
    intro p i
    simp only [argminPair]
    by_cases h : x < p.2
    · rw [if_pos h]
      rcases ih (i, x) (i + 1) with heq | ⟨k, hk, hk1, hk2⟩
      · right
        exact ⟨0, by simp, by rw [heq]; rfl, by rw [heq]; rfl⟩
      · right
        refine ⟨k + 1, by simpa using hk, ?_, ?_⟩
        · rw [hk1]; omega
        · rw [hk2]; rfl
    · rw [if_neg h]
      rcases ih p (i + 1) with heq | ⟨k, hk, hk1, hk2⟩
      · left; exact heq
      · right
        refine ⟨k + 1, by simpa using hk, ?_, ?_⟩
        · rw [hk1]; omega
        · rw [hk2]; rfl

/-- On a nonempty score list, `np.argmin` points inside the list at a minimal
score. -/
lemma argminIdx_spec (x : WithTop ℚ) (xs : List (WithTop ℚ)) :
    argminIdx (x :: xs) < (x :: xs).length ∧
      ∀ y ∈ x :: xs, (x :: xs).getD (argminIdx (x :: xs)) ⊤ ≤ y := by
  have hle := argminPair_le xs (0, x) 1
  rcases argminPair_index xs (0, x) 1 with heq | ⟨k, hk, hk1, hk2⟩
  · constructor
    · simp [argminIdx, heq]
    · intro y hy
      have hx : (argminPair (0, x) 1 xs).2 = x := by rw [heq]
      have hidx : argminIdx (x :: xs) = 0 := by simp [argminIdx, heq]
      rw [hidx]
      simp only [List.getD_cons_zero]
      rcases List.mem_cons.mp hy with rfl | hy
      · exact le_refl y
      · rw [← hx]; exact hle.2 y hy
  · have hidx : argminIdx (x :: xs) = k + 1 := by
      simp only [argminIdx, hk1]; omega
    constructor
    · simp only [hidx, List.length_cons]; omega
    · intro y hy
      rw [hidx]
      simp only [List.getD_cons_succ]
      rw [← hk2]
      rcases List.mem_cons.mp hy with rfl | hy
      · exact hle.1
      · exact hle.2 y hy

lemma nnSamples_fold_mean {β : Type} (forward : Vec → β) (samples : List Vec) :
    ∀ (acc : NNState × List β),
      (samples.foldl (fun acc sample =>
          ({ acc.1 with params := sample }, acc.2 ++ [forward sample])) acc).1.mean
        = acc.1.mean := by
  induction samples with
  | nil => intro acc; rfl
  | cons a as ih => intro acc; rw [List.foldl_cons, ih]

lemma nnClassif_fold_mean (forward : Vec → ℚ) (nSamples : ℕ) (samples : List Vec) :
    ∀ (acc : NNState × ℚ),
      (samples.foldl (fun acc sample =>
          ({ acc.1 with params := sample }, acc.2 + forward sample / nSamples)) acc).1.mean
        = acc.1.mean := by
  induction samples with
  | nil => intro acc; rfl
  | cons a as ih => intro acc; rw [List.foldl_cons, ih]

/-! ### Claim theorems -/

/-- Claim C1: for every fitted dense (`FullLaplace`) and diagonal (`DiagLaplace`)
approximation, the `posterior_precision` property returns `H_factor * H +
diag(prior_precision_diag)` with `H_factor = 1/(sigma_noise^2 * temperature)`,
evaluated at the current `H`, `sigma_noise`, `temperature` and prior precision.
The hypotheses state the object is fitted (`H` is not `None`) and carries a
prior precision of one of the lengths its setter admits, over parameter tensors
of positive element count. -/
theorem C1_posterior_precision_formula (A : Mat) (hD : Vec) (sigma tau : ℚ)
    (pp : Vec) (sizes : List ℕ) (hpos : ∀ n ∈ sizes, 0 < n)
    (hlen : pp.length = 1 ∨ pp.length = sizes.length ∨ pp.length = sizes.sum) :
    ∃ p0, specBroadcast pp sizes = some p0 ∧
      fullPosteriorPrecision ⟨some A, sigma, tau, pp, sizes⟩ =
        .ok (specFullPosterior A sigma tau p0) ∧
      diagPosteriorPrecision ⟨some hD, sigma, tau, pp, sizes⟩ =
        .ok (specDiagPosterior hD sigma tau p0) := by
  obtain ⟨v, hcode, hspec, hlenv⟩ := broadcast_agree pp sizes hpos hlen
  refine ⟨v, hspec, ?_, ?_⟩
  · simp [fullPosteriorPrecision, hcode, specFullPosterior, hFactor_eq]
  · simp [diagPosteriorPrecision, hcode, specDiagPosterior, hFactor_eq]

/-- Witness for C1 at a one-parameter model with sigma_noise 2, temperature 3,
scalar prior 5. -/
theorem C1_witness :
    ((∀ n ∈ ([1] : List ℕ), 0 < n) ∧
      (([5] : Vec).length = 1 ∨ ([5] : Vec).length = ([1] : List ℕ).length ∨
        ([5] : Vec).length = ([1] : List ℕ).sum)) ∧
    (∃ p0, specBroadcast [5] [1] = some p0 ∧
      fullPosteriorPrecision ⟨some [[2]], 2, 3, [5], [1]⟩ =
        .ok (specFullPosterior [[2]] 2 3 p0) ∧
      diagPosteriorPrecision ⟨some [4], 2, 3, [5], [1]⟩ =
        .ok (specDiagPosterior [4] 2 3 p0)) :=
  ⟨⟨by decide, by decide⟩,
    C1_posterior_precision_formula [[2]] [4] 2 3 [5] [1] (by decide) (by decide)⟩

/-- Claim C2: for the dense and diagonal variants, fitting a stream split into
two halves, the second call with `override=False`, produces the same `H`,
`loss` and `n_data` as one fit of the concatenated stream (exactly so in the
rational model, where floating-point summation order is immaterial). -/
theorem C2_incremental_fit_additive {β : Type} (nP : ℕ) (cF : β → ℚ × Mat)
    (cD : β → ℚ × Vec) (tr : Vec) (sF : ParamState Mat) (sD : ParamState Vec)
    (h1 h2 : List β) (N1 N2 : ℕ) :
    ((fullFit nP cF tr (fullFit nP cF tr sF h1 N1 true) h2 N2 false).H =
        (fullFit nP cF tr sF (h1 ++ h2) (N1 + N2) true).H ∧
      (fullFit nP cF tr (fullFit nP cF tr sF h1 N1 true) h2 N2 false).loss =
        (fullFit nP cF tr sF (h1 ++ h2) (N1 + N2) true).loss ∧
      (fullFit nP cF tr (fullFit nP cF tr sF h1 N1 true) h2 N2 false).nData =
        (fullFit nP cF tr sF (h1 ++ h2) (N1 + N2) true).nData) ∧
    ((diagFit nP cD tr (diagFit nP cD tr sD h1 N1 true) h2 N2 false).H =
        (diagFit nP cD tr sD (h1 ++ h2) (N1 + N2) true).H ∧
      (diagFit nP cD tr (diagFit nP cD tr sD h1 N1 true) h2 N2 false).loss =
        (diagFit nP cD tr sD (h1 ++ h2) (N1 + N2) true).loss ∧
      (diagFit nP cD tr (diagFit nP cD tr sD h1 N1 true) h2 N2 false).nData =
        (diagFit nP cD tr sD (h1 ++ h2) (N1 + N2) true).nData) := by
  have hF := parametricFit_split (zeroMat nP) matAdd cF tr sF h1 h2 N1 N2
  have hD := parametricFit_split (List.replicate nP (0 : ℚ)) vecAdd cD tr sD h1 h2 N1 N2
  unfold fullFit diagFit
  rw [hF, hD]
  exact ⟨⟨rfl, rfl, rfl⟩, rfl, rfl, rfl⟩

/-- Claim C3 counterexample: on a classification approximation, the
`sigma_noise` property setter accepts the non-unit value 2 with no error,
refuting the claim that every attempt to set a non-unit value fails for
non-regression likelihoods (the setter, baselaplace.py 437-454, never inspects
the likelihood). -/
theorem C3_counterexample :
    demoClassifState.likelihood ≠ Likelihood.regression ∧ (2 : ℚ) ≠ 1 ∧
      setSigmaNoise demoClassifState 2 =
        .ok { demoClassifState with sigmaNoise := 2 } := by
  decide

/-- Claim C3 (amended): a non-unit `sigma_noise` for a non-regression
likelihood fails at construction, and passing any `sigma_noise` argument to
`log_marginal_likelihood` fails for a non-regression likelihood; the
`sigma_noise` property setter itself, however, performs no likelihood check and
stores any scalar value. -/
theorem C3_amended_sigma_noise_paths (lik : Likelihood) (v : ℚ) (s : BaseState)
    (hv : v ≠ 1) (hlik : lik ≠ .regression) (hs : s.likelihood ≠ .regression) :
    initBase lik v = .error "Sigma noise != 1 only available for regression." ∧
    logMarglikSetSigma s (some v) =
      .error "Can only change sigma_noise for regression." ∧
    setSigmaNoise s v = .ok { s with sigmaNoise := v } := by
  refine ⟨?_, ?_, rfl⟩
  · unfold initBase; rw [if_pos ⟨hv, hlik⟩]
  · simp only [logMarglikSetSigma]; rw [if_pos hs]

/-- Witness for C3 at likelihood classification and sigma_noise 2. -/
theorem C3_witness :
    ((2 : ℚ) ≠ 1 ∧ Likelihood.classification ≠ Likelihood.regression ∧
      demoClassifState.likelihood ≠ Likelihood.regression) ∧
    (initBase .classification 2 =
        .error "Sigma noise != 1 only available for regression." ∧
      logMarglikSetSigma demoClassifState (some 2) =
        .error "Can only change sigma_noise for regression." ∧
      setSigmaNoise demoClassifState 2 =
        .ok { demoClassifState with sigmaNoise := 2 }) :=
  ⟨⟨by decide, by decide, by decide⟩,
    C3_amended_sigma_noise_paths .classification 2 demoClassifState (by decide)
      (by decide) (by decide)⟩

/-- Claim C4 (code bug, evaluated at the failing input): on a predictor with a
trainable parameter tensor `[2]` and a frozen one `[3]`, `LowRankLaplace.fit`
sets `mean = parameters_to_vector(self.model.parameters()) = [2, 3]` — all
parameters including the frozen one — although the flattened trainable
parameters are `[2]` and `n_params = 1`; the claim (and the rest of the class,
whose other variants use `self.params`) requires `mean` to have length
`n_params`. -/
theorem C4_lowrank_mean_all_params :
    lowRankFit demoEig demoLowRankState [()] 1 true =
      .ok { modelParams := demoModelParams, mean := [2, 3],
            H := some ([[1]], [1]), loss := 5, nData := 1 } ∧
    flattenTrainable demoModelParams = [2] ∧
    nParamsOf demoModelParams = 1 ∧
    ([2, 3] : Vec) ≠ flattenTrainable demoModelParams ∧
    ([2, 3] : Vec).length ≠ nParamsOf demoModelParams := by
  decide

/-- Claim C5: every `LowRankLaplace.fit` call with `override=False` raises the
"does not support updating" error; the raise is the first statement of `fit`,
before any state mutation, so the approximation is left unchanged — in
particular a second, incremental fit after a first fit always fails. -/
theorem C5_lowrank_update_always_fails {β : Type} (eig : List β → Mat × Vec × ℚ)
    (s : LowRankState) (stream : List β) (n : ℕ) :
    lowRankFit eig s stream n false = .error "LowRank LA does not support updating." :=
  rfl

/-- Claim C6: for a stored prior precision of length 1, `n_layers` or
`n_params`, `prior_precision_diag` returns the manual broadcast of the input,
a vector of length `n_params`; for any other stored length it fails with the
shape-mismatch error. -/
theorem C6_prior_precision_diag_broadcast (pp : Vec) (sizes : List ℕ)
    (hpos : ∀ n ∈ sizes, 0 < n) :
    ((pp.length = 1 ∨ pp.length = sizes.length ∨ pp.length = sizes.sum) →
      ∃ v, priorPrecisionDiag pp sizes = .ok v ∧ v.length = sizes.sum ∧
        specBroadcast pp sizes = some v) ∧
    ((pp.length ≠ 1 ∧ pp.length ≠ sizes.length ∧ pp.length ≠ sizes.sum) →
      priorPrecisionDiag pp sizes =
        .error "Mismatch of prior and model. Diagonal, scalar, or per-layer prior.") := by
  constructor
  · intro hlen
    obtain ⟨v, hcode, hspec, hlenv⟩ := broadcast_agree pp sizes hpos hlen
    exact ⟨v, hcode, hlenv, hspec⟩
  · rintro ⟨h1, hlay, hsum⟩
    unfold priorPrecisionDiag
    rw [if_neg h1, if_neg hsum, if_neg hlay]

/-- Witness for C6 on a two-layer model with sizes [2, 1] and a per-layer
prior [5, 7]. -/
theorem C6_witness :
    (∀ n ∈ ([2, 1] : List ℕ), 0 < n) ∧
    (((([5, 7] : Vec).length = 1 ∨ ([5, 7] : Vec).length = ([2, 1] : List ℕ).length ∨
        ([5, 7] : Vec).length = ([2, 1] : List ℕ).sum) →
      ∃ v, priorPrecisionDiag [5, 7] [2, 1] = .ok v ∧ v.length = ([2, 1] : List ℕ).sum ∧
        specBroadcast [5, 7] [2, 1] = some v) ∧
    ((([5, 7] : Vec).length ≠ 1 ∧ ([5, 7] : Vec).length ≠ ([2, 1] : List ℕ).length ∧
        ([5, 7] : Vec).length ≠ ([2, 1] : List ℕ).sum) →
      priorPrecisionDiag [5, 7] [2, 1] =
        .error "Mismatch of prior and model. Diagonal, scalar, or per-layer prior.")) :=
  ⟨by decide, C6_prior_precision_diag_broadcast [5, 7] [2, 1] (by decide)⟩

/-- Claim C7 counterexample: when every candidate evaluation raises (`demoFailEval`
returns `none` everywhere), `_gridsearch` still returns the first grid point —
an errored candidate with infinite score is selected, refuting "is therefore
never selected". -/
theorem C7_counterexample :
    demoFailEval 3 = none ∧ demoFailEval 5 = none ∧
      gridsearch demoFailEval [3, 5] = some 3 := by
  decide

/-- Claim C7 (amended): every candidate evaluation that raises is scored as
infinite loss, and the returned prior precision is a grid point of minimal
score among all evaluations (first on ties, as numpy argmin); hence as soon as
at least one evaluation succeeds — the hypothesis — the selected point is never
an errored candidate. -/
theorem C7_gridsearch_minimum (evalR : ℚ → Option ℚ) (interval : List ℚ)
    (h : ∃ p ∈ interval, (evalR p).isSome = true) :
    ∃ i, i < interval.length ∧
      gridsearch evalR interval = some (interval.getD i 0) ∧
      (evalR (interval.getD i 0)).isSome = true ∧
      ∀ q ∈ interval, gridScore evalR (interval.getD i 0) ≤ gridScore evalR q := by
  obtain ⟨p, hp, hps⟩ := h
  rcases interval with _ | ⟨a, rest⟩
  · cases hp
  · obtain ⟨hlt, hmin⟩ := argminIdx_spec (gridScore evalR a) (rest.map (gridScore evalR))
    simp only [← List.map_cons] at hlt hmin
    set i := argminIdx ((a :: rest).map (gridScore evalR)) with hi
    have hilt : i < (a :: rest).length := by
      simpa using hlt
    have hiltm : i < ((a :: rest).map (gridScore evalR)).length := by
      simpa using hlt
    have hscore_i : ((a :: rest).map (gridScore evalR)).getD i ⊤
        = gridScore evalR ((a :: rest).getD i 0) := by
      rw [List.getD_eq_getElem _ _ hiltm, List.getD_eq_getElem _ _ hilt,
        List.getElem_map]
    have hmin' : ∀ q ∈ a :: rest,
        gridScore evalR ((a :: rest).getD i 0) ≤ gridScore evalR q := by
      intro q hq
      have hmem : gridScore evalR q ∈ (a :: rest).map (gridScore evalR) :=
        List.mem_map_of_mem _ hq
      have h2 := hmin _ hmem
      rwa [hscore_i] at h2
    refine ⟨i, hilt, ?_, ?_, hmin'⟩
    · unfold gridsearch
      rw [← hi, List.getElem?_eq_getElem hilt, List.getD_eq_getElem _ _ hilt]
    · have hp_fin : gridScore evalR p < ⊤ := by
        unfold gridScore
        cases hev : evalR p with
        | none => rw [hev] at hps; simp at hps
        | some v => simp
      have hne : gridScore evalR ((a :: rest).getD i 0) ≠ ⊤ :=
        ne_top_of_lt (lt_of_le_of_lt (hmin' p hp) hp_fin)
      cases hev : evalR ((a :: rest).getD i 0) with
      | none => exact absurd (by unfold gridScore; rw [hev]) hne
      | some v => rfl

/-- Witness for C7 on the grid [5, 3] where only the point 3 evaluates
successfully. -/
theorem C7_witness :
    (∃ p ∈ ([5, 3] : List ℚ), (demoPartialEval p).isSome = true) ∧
    (∃ i, i < ([5, 3] : List ℚ).length ∧
      gridsearch demoPartialEval [5, 3] = some (([5, 3] : List ℚ).getD i 0) ∧
      (demoPartialEval (([5, 3] : List ℚ).getD i 0)).isSome = true ∧
      ∀ q ∈ ([5, 3] : List ℚ),
        gridScore demoPartialEval (([5, 3] : List ℚ).getD i 0) ≤
          gridScore demoPartialEval q) :=
  ⟨by decide, C7_gridsearch_minimum demoPartialEval [5, 3] (by decide)⟩

/-- Claim C8: on a fitted function-space approximation, after any prior
precision change the next predictive call rebuilds `Sigma_inv` from the current
kernel and likelihood-curvature state before computing predictions — the state
the predictive math reads has `Sigma_inv` equal to the regularized kernel of
the *current* prior precision, while everything produced by `fit` (`K_MM`, `L`,
`n_data`, the fitted flag) is untouched, so `fit` is not re-run. -/
theorem C8_prior_change_rebuilds_sigma (s : FuncState) (p : ℚ)
    (h : s.fitted = true) :
    ∃ s2, funcCallState (setPriorPrecisionGP s p) = .ok s2 ∧
      s2.sigmaInv = some (regularizedKernel s2) ∧
      s2.priorPrecision = p ∧ s2.kMM = s.kMM ∧ s2.L = s.L ∧
      s2.nData = s.nData ∧ s2.fitted = true := by
  refine ⟨buildSigmaInv (setPriorPrecisionGP s p), ?_, rfl, rfl, rfl, rfl, rfl, h⟩
  unfold funcCallState setPriorPrecisionGP
  simp [h]

/-- Witness for C8 on a concrete fitted state with new prior precision 9. -/
theorem C8_witness :
    demoFuncState.fitted = true ∧
    (∃ s2, funcCallState (setPriorPrecisionGP demoFuncState 9) = .ok s2 ∧
      s2.sigmaInv = some (regularizedKernel s2) ∧
      s2.priorPrecision = 9 ∧ s2.kMM = demoFuncState.kMM ∧ s2.L = demoFuncState.L ∧
      s2.nData = demoFuncState.nData ∧ s2.fitted = true) :=
  ⟨rfl, C8_prior_change_rebuilds_sigma demoFuncState 9 rfl⟩

/-- Claim C9: after an nn-mode predictive call (Monte-Carlo sampling or the
streaming classification average), the predictor's parameters are restored to
`mean`; under the fit-established invariant that the parameters held `mean`
before the call, the call leaves the predictor state exactly unchanged. -/
theorem C9_nn_predictive_restores_mean {β : Type} (forward : Vec → β)
    (forwardC : Vec → ℚ) (s : NNState) (samples : List Vec) (nSamples : ℕ)
    (hinv : s.params = s.mean) :
    (nnPredictiveSamples forward s samples).1.params = s.mean ∧
    (nnPredictiveSamples forward s samples).1 = s ∧
    (nnPredictiveClassification forwardC s samples nSamples).1.params = s.mean ∧
    (nnPredictiveClassification forwardC s samples nSamples).1 = s := by
  obtain ⟨sp, sm⟩ := s
  dsimp only at hinv
  subst hinv
  have hm1 := nnSamples_fold_mean forward samples (⟨sp, sp⟩, ([] : List β))
  have hm2 := nnClassif_fold_mean forwardC nSamples samples (⟨sp, sp⟩, (0 : ℚ))
  refine ⟨?_, ?_, ?_, ?_⟩ <;>
    simp_all [nnPredictiveSamples, nnPredictiveClassification, NNState.mk.injEq]

/-- Witness for C9 on a two-parameter predictor holding its mean. -/
theorem C9_witness :
    demoNNState.params = demoNNState.mean ∧
    ((nnPredictiveSamples id demoNNState [[7]]).1.params = demoNNState.mean ∧
      (nnPredictiveSamples id demoNNState [[7]]).1 = demoNNState ∧
      (nnPredictiveClassification (fun v => v.headD 0) demoNNState [[7]] 1).1.params =
        demoNNState.mean ∧
      (nnPredictiveClassification (fun v => v.headD 0) demoNNState [[7]] 1).1 =
        demoNNState) :=
  ⟨rfl, C9_nn_predictive_restores_mean id (fun v => v.headD 0) demoNNState [[7]] 1 rfl⟩

/-- Claim C10: constructing with likelihood `reward_modeling` stores the
classification likelihood; a fit keeps it (while setting the model's
`output_size` to the inferred output count); the first predictive call switches
the stored likelihood to regression and sets `output_size = 1`; and every
predictive call on a regression-likelihood state leaves the state unchanged and
takes the regression path — so all subsequent calls do. -/
theorem C10_reward_modeling_switch (nOut : ℕ) (s : BaseState)
    (hs : initBase .rewardModeling 1 = .ok s) :
    s.likelihood = .classification ∧ s.rewardModeling = true ∧
    (fitSetsOutput s nOut).likelihood = .classification ∧
    (predCall (fitSetsOutput s nOut)).1.likelihood = .regression ∧
    (predCall (fitSetsOutput s nOut)).1.outputSize = some 1 ∧
    (predCall (fitSetsOutput s nOut)).2 = .regression ∧
    (∀ t : BaseState, t.likelihood = .regression → predCall t = (t, .regression)) := by
  have hnorm : initBase .rewardModeling 1 = .ok demoRMState := by decide
  rw [hnorm] at hs
  simp only [Except.ok.injEq] at hs
  subst hs
  refine ⟨rfl, rfl, rfl, rfl, rfl, rfl, ?_⟩
  intro t ht
  unfold predCall
  have hc : ¬(t.rewardModeling = true ∧ t.likelihood = Likelihood.classification) := by
    rintro ⟨-, hcl⟩
    rw [ht] at hcl
    cases hcl
  rw [if_neg hc]
  simp [ht]

/-- Witness for C10 with two model outputs inferred at fit time. -/
theorem C10_witness :
    initBase .rewardModeling 1 = .ok demoRMState ∧
    (demoRMState.likelihood = .classification ∧ demoRMState.rewardModeling = true ∧
      (fitSetsOutput demoRMState 2).likelihood = .classification ∧
      (predCall (fitSetsOutput demoRMState 2)).1.likelihood = .regression ∧
      (predCall (fitSetsOutput demoRMState 2)).1.outputSize = some 1 ∧
      (predCall (fitSetsOutput demoRMState 2)).2 = .regression ∧
      (∀ t : BaseState, t.likelihood = .regression → predCall t = (t, .regression))) :=
  ⟨by decide, C10_reward_modeling_switch 2 demoRMState (by decide)⟩

end LaplaceLib
